import Mathlib

/-!
Verification development for the shape-editing engine of the iPad drawing
PWA (source: src/src/components/DrawingCanvas.tsx; src/unnamed/part_000 is
an earlier revision of the same component with identical geometry helpers).

Embedding conventions:
* Coordinates are rational numbers.  The source compares Euclidean
  distances (computed with Math.hypot) against non-negative tolerances;
  since both sides are non-negative, every such comparison `dist ≤ c`
  (or `dist > c`) is embedded as the equivalent comparison of squares
  `dist2 ≤ c^2` (or `dist2 > c^2`), which keeps the development
  computable over ℚ.  The angle-snapping helper, which genuinely uses
  transcendental functions (atan2, cos, sin), is embedded separately
  over ℝ.
* JavaScript numbers are idealised as exact arithmetic (no NaN or
  floating-point rounding).
-/

namespace Draw

/-- A 2D point, as the TS `Point = { x: number; y: number }`. -/
structure Pt where
  x : ℚ
  y : ℚ
deriving DecidableEq, Repr

/-- Squared Euclidean distance.  The TS helper `dist` returns
`Math.hypot(a.x-b.x, a.y-b.y)`; this is its square. -/
def dist2 (a b : Pt) : ℚ :=
  (a.x - b.x) ^ 2 + (a.y - b.y) ^ 2

/-- Raw projection parameter `t = (ap·ab) / ab2` from
`distancePointToSegment` before clamping. -/
def segParamRaw (p a b : Pt) : ℚ :=
  ((p.x - a.x) * (b.x - a.x) + (p.y - a.y) * (b.y - a.y)) /
    ((b.x - a.x) ^ 2 + (b.y - a.y) ^ 2)

/-- The projection parameter after the clamp
`t = Math.max(0, Math.min(1, t))`. -/
def segParam (p a b : Pt) : ℚ :=
  max 0 (min 1 (segParamRaw p a b))

/-- The projected point `{ x: a.x + t * abx, y: a.y + t * aby }`. -/
def projPoint (p a b : Pt) : Pt :=
  ⟨a.x + segParam p a b * (b.x - a.x), a.y + segParam p a b * (b.y - a.y)⟩

/-- Squared point-to-segment distance, embedding the TS
`distancePointToSegment` (which returns the unsquared distance): if the
segment is degenerate (`ab2 === 0`) the distance to `a`, otherwise the
distance to the clamped projection. -/
def distancePointToSegment2 (p a b : Pt) : ℚ :=
  if (b.x - a.x) ^ 2 + (b.y - a.y) ^ 2 = 0 then dist2 p a
  else dist2 p (projPoint p a b)

/-- The resize-handle identifiers of the TS `ResizeHandle` union. -/
inductive RHandle where
  | nw | ne | sw | se | t | b | l | r | hstart | hend
deriving DecidableEq, Repr

/-- The TS `Drawable` tagged union.  The `"line" | "arrow"` variant is a
single constructor with an `isArrow` tag, mirroring the shared TS branch. -/
inductive Drawable where
  | freehand (id : String) (points : List Pt) (stroke : String) (width : ℚ)
  | line (id : String) (isArrow : Bool) (a b : Pt) (stroke : String) (width : ℚ)
  | rect (id : String) (x y w h : ℚ) (stroke : String) (width : ℚ)
      (fill : Option String)
  | circle (id : String) (cx cy r : ℚ) (stroke : String) (width : ℚ)
      (fill : Option String)
  | measure (id : String) (a b : Pt) (stroke : String) (width : ℚ)
deriving DecidableEq, Repr

/-- The `id` field common to every `Drawable` variant. -/
def Drawable.id : Drawable → String
  | .freehand i _ _ _ => i
  | .line i _ _ _ _ _ => i
  | .rect i _ _ _ _ _ _ _ => i
  | .circle i _ _ _ _ _ _ => i
  | .measure i _ _ _ _ => i

/-- The `width` field common to every `Drawable` variant. -/
def Drawable.width : Drawable → ℚ
  | .freehand _ _ _ w => w
  | .line _ _ _ _ _ w => w
  | .rect _ _ _ _ _ _ w _ => w
  | .circle _ _ _ _ _ w _ => w
  | .measure _ _ _ _ w => w

/-- Replace the `id` field, as the TS `newItem.id = uid()` assignment. -/
def Drawable.setId : Drawable → String → Drawable
  | .freehand _ pts st w, i => .freehand i pts st w
  | .line _ ar a b st w, i => .line i ar a b st w
  | .rect _ x y w h st wd fl, i => .rect i x y w h st wd fl
  | .circle _ cx cy r st wd fl, i => .circle i cx cy r st wd fl
  | .measure _ a b st w, i => .measure i a b st w

/-- The TS `pointInRect` test. -/
def pointInRect (p : Pt) (x y w h : ℚ) : Bool :=
  decide (x ≤ p.x ∧ p.x ≤ x + w ∧ y ≤ p.y ∧ p.y ≤ y + h)

/-- The TS `pointInCircle` test `dist(p, center) <= r`, embedded over
squares; the extra `0 ≤ r` conjunct captures that a (non-squared)
distance can never be at most a negative radius. -/
def pointInCircle (p : Pt) (cx cy r : ℚ) : Bool :=
  decide (0 ≤ r ∧ dist2 p ⟨cx, cy⟩ ≤ r ^ 2)

/-- Successive pairs of a point list: the freehand segments
`(points[i], points[i+1])`. -/
def segPairs (pts : List Pt) : List (Pt × Pt) :=
  pts.zip pts.tail

/-- The TS `hitTest`: tolerance `tol = Math.max(8, d.width * 2)`; each
distance comparison `≤ tol` is embedded as its square `≤ tol^2`
(`tol ≥ 8 > 0`, so the two are equivalent). -/
def hitTest (d : Drawable) (p : Pt) : Bool :=
  let tol := max 8 (d.width * 2)
  match d with
  | .freehand _ pts _ _ =>
      (segPairs pts).any fun ab => decide (distancePointToSegment2 p ab.1 ab.2 ≤ tol ^ 2)
  | .line _ _ a b _ _ => decide (distancePointToSegment2 p a b ≤ tol ^ 2)
  | .measure _ a b _ _ => decide (distancePointToSegment2 p a b ≤ tol ^ 2)
  | .rect _ x y w h _ _ _ => pointInRect p x y w h
  | .circle _ cx cy r _ _ _ => pointInCircle p cx cy r

/-- The TS `translateDrawable`. -/
def translateDrawable (d : Drawable) (dx dy : ℚ) : Drawable :=
  match d with
  | .freehand i pts st w => .freehand i (pts.map fun p => ⟨p.x + dx, p.y + dy⟩) st w
  | .line i ar a b st w => .line i ar ⟨a.x + dx, a.y + dy⟩ ⟨b.x + dx, b.y + dy⟩ st w
  | .rect i x y w h st wd fl => .rect i (x + dx) (y + dy) w h st wd fl
  | .circle i cx cy r st wd fl => .circle i (cx + dx) (cy + dy) r st wd fl
  | .measure i a b st w => .measure i ⟨a.x + dx, a.y + dy⟩ ⟨b.x + dx, b.y + dy⟩ st w

/-- The component-level `pickTop`: scan the item list from the end
(topmost in z-order) and return the first id whose `hitTest` succeeds. -/
def pickTop (items : List Drawable) (p : Pt) : Option String :=
  (items.reverse.find? fun d => hitTest d p).map Drawable.id

/-- The display-unit union `"mm" | "cm" | "m"`. -/
inductive UnitKind where
  | mm | cm | m
deriving DecidableEq, Repr

/-- The live component state backing `AppSettings`: one field per
`useState` hook.  The fixed-dimension inputs are plain strings (the
hooks are initialised with `""`). -/
structure AppSettings where
  unit : UnitKind
  gridSize : ℚ
  mmPerPx : ℚ
  snapEnabled : Bool
  fixedLength : String
  fixedWidth : String
  fixedHeight : String
  fixedDiameter : String
  angleSnapEnabled : Bool
  fixedAngle : String
deriving DecidableEq, Repr

/-- The `AppSettings` record as stored in a history `Snapshot` (and in a
saved payload): the four fixed-dimension inputs are optional there
(`fixedLength?: string` etc.), everything else is required. -/
structure SnapSettings where
  unit : UnitKind
  gridSize : ℚ
  mmPerPx : ℚ
  snapEnabled : Bool
  fixedLength : Option String
  fixedWidth : Option String
  fixedHeight : Option String
  fixedDiameter : Option String
  angleSnapEnabled : Bool
  fixedAngle : String
deriving DecidableEq, Repr

/-- Package the live settings into a snapshot record, as the object
literal built inside `pushHistory` (every fixed field present). -/
def toSnapSettings (a : AppSettings) : SnapSettings :=
  { unit := a.unit, gridSize := a.gridSize, mmPerPx := a.mmPerPx
    snapEnabled := a.snapEnabled
    fixedLength := some a.fixedLength, fixedWidth := some a.fixedWidth
    fixedHeight := some a.fixedHeight, fixedDiameter := some a.fixedDiameter
    angleSnapEnabled := a.angleSnapEnabled, fixedAngle := a.fixedAngle }

/-- Restore live settings from a snapshot, with the normalisations the
`undo`/`redo` setters apply: `snap.settings.fixedLength || ""` maps a
missing fixed field to `""`, and `angleSnapEnabled !== false` is the
identity on booleans. -/
def restoreSettings (s : SnapSettings) : AppSettings :=
  { unit := s.unit, gridSize := s.gridSize, mmPerPx := s.mmPerPx
    snapEnabled := s.snapEnabled
    fixedLength := s.fixedLength.getD "", fixedWidth := s.fixedWidth.getD ""
    fixedHeight := s.fixedHeight.getD "", fixedDiameter := s.fixedDiameter.getD ""
    angleSnapEnabled := s.angleSnapEnabled, fixedAngle := s.fixedAngle }

/-- The TS `Snapshot` type. -/
structure Snapshot where
  items : List Drawable
  selectedIds : List String
  settings : SnapSettings
deriving DecidableEq, Repr

/-- The history pair `history : Snapshot[]` / `historyIndex : number`.
The index is an integer because it is initialised to `-1`. -/
structure History where
  snapshots : List Snapshot
  cursor : ℤ
deriving DecidableEq, Repr

/-- The core of `pushHistory`: `prev.slice(0, historyIndex + 1)` followed
by a push of the new snapshot, with the index incremented. -/
def pushSnap (h : History) (snap : Snapshot) : History :=
  { snapshots := h.snapshots.take (h.cursor + 1).toNat ++ [snap]
    cursor := h.cursor + 1 }

/-- The derived flag `canUndo = historyIndex > 0`. -/
def canUndo (h : History) : Bool :=
  decide (0 < h.cursor)

/-- The derived flag `canRedo = historyIndex < history.length - 1`. -/
def canRedo (h : History) : Bool :=
  decide (h.cursor < (h.snapshots.length : ℤ) - 1)

/-- The snapshot used by `resetProject` and by the initial-history
effect: empty document, empty selection, default settings. -/
def initialSnapshot : Snapshot :=
  { items := [], selectedIds := []
    settings :=
      { unit := .mm, gridSize := 10, mmPerPx := 1, snapEnabled := true
        fixedLength := none, fixedWidth := none, fixedHeight := none
        fixedDiameter := none, angleSnapEnabled := true, fixedAngle := "" } }

/-- The mutable component state the claims observe: document, selection,
live settings and the undo history. -/
structure AppState where
  items : List Drawable
  selectedIds : List String
  settings : AppSettings
  history : History
deriving DecidableEq, Repr

/-- Push a snapshot of the given document and selection, merging the
current live settings with an optional full override (the only caller
passing an override, the document loader, builds a complete record). -/
def pushHistoryS (s : AppState) (nextItems : List Drawable)
    (nextSel : List String) (ov : Option SnapSettings) : History :=
  pushSnap s.history
    { items := nextItems, selectedIds := nextSel
      settings := ov.getD (toSnapSettings s.settings) }

/-- The `undo` handler: no-op unless `canUndo`; otherwise decrement the
cursor and restore document, selection and settings from the snapshot at
the new cursor. -/
def undo (s : AppState) : AppState :=
  if canUndo s.history then
    let nextIndex := s.history.cursor - 1
    let snap := s.history.snapshots.getD nextIndex.toNat initialSnapshot
    { items := snap.items, selectedIds := snap.selectedIds
      settings := restoreSettings snap.settings
      history := { s.history with cursor := nextIndex } }
  else s

/-- The `redo` handler: no-op unless `canRedo`; otherwise increment the
cursor and restore from the snapshot at the new cursor. -/
def redo (s : AppState) : AppState :=
  if canRedo s.history then
    let nextIndex := s.history.cursor + 1
    let snap := s.history.snapshots.getD nextIndex.toNat initialSnapshot
    { items := snap.items, selectedIds := snap.selectedIds
      settings := restoreSettings snap.settings
      history := { s.history with cursor := nextIndex } }
  else s

/-- A JSON value, the possible results of `JSON.parse`. -/
inductive Json where
  | null
  | bool (b : Bool)
  | num (q : ℚ)
  | str (s : String)
  | arr (elems : List Json)
  | obj (fields : List (String × Json))

/-- Property access `j[key]`: defined (`some`) only on objects that carry
the key. -/
def Json.lookup : Json → String → Option Json
  | .obj fields, key => (fields.find? fun kv => kv.1 = key).map Prod.snd
  | _, _ => none

/-- JavaScript truthiness of a possibly-missing value, as used by the
loader (`if (parsed.settings)`, `if (... .mmPerGrid)`, `gridSize || 10`). -/
def truthy : Option Json → Bool
  | none => false
  | some .null => false
  | some (.bool b) => b
  | some (.num q) => decide (q ≠ 0)
  | some (.str s) => decide (s ≠ "")
  | some (.arr _) => true
  | some (.obj _) => true

/-- The guard `!parsed || typeof parsed !== "object" ||
!Array.isArray(parsed.items)`: only a (non-null, non-array) object whose
`items` property is an array passes. -/
def hasItemsArray (j : Json) : Bool :=
  match j with
  | .obj fields =>
      match (fields.find? fun kv => kv.1 = "items").map Prod.snd with
      | some (.arr _) => true
      | _ => false
  | _ => false

/-- The observation `x || ""` made of a fixed-dimension field when it is
restored or assigned into the live state: a string is kept, anything
falsy or non-string becomes `""` (the loader only ever stores strings
there in well-formed payloads). -/
def strOrEmpty : Option Json → String
  | some (.str s) => s
  | _ => ""

/-- The observation `x !== false` made of `angleSnapEnabled`: only the
literal `false` turns angle snapping off. -/
def neqFalse : Option Json → Bool
  | some (.bool false) => false
  | _ => true

/-- Numeric field access; the TS code assigns payload numbers unchecked,
and every payload the claims exercise stores numbers in numeric fields. -/
def decodeNum : Option Json → ℚ
  | some (.num q) => q
  | _ => 0

/-- Unit field access, modelling the unchecked cast of
`parsed.settings.unit`; well-formed payloads store one of the three
literals. -/
def decodeUnit : Option Json → UnitKind
  | some (.str "mm") => .mm
  | some (.str "cm") => .cm
  | some (.str "m") => .m
  | _ => .mm

/-- Decode one point object `{x, y}` of a shape payload. -/
def decodePt (j : Json) : Pt :=
  ⟨decodeNum (j.lookup "x"), decodeNum (j.lookup "y")⟩

/-- Adapter for the unchecked cast `setItems(parsed.items)`: the TS code
performs no validation on the shape objects, so this decoder models only
well-formed shape payloads (one object per shape, with the fields the
save format writes); anything else is dropped. -/
def decodeDrawable (j : Json) : Option Drawable :=
  let i := strOrEmpty (j.lookup "id")
  let stroke := strOrEmpty (j.lookup "stroke")
  let w := decodeNum (j.lookup "width")
  match j.lookup "type" with
  | some (.str "freehand") =>
      match j.lookup "points" with
      | some (.arr ps) => some (.freehand i (ps.map decodePt) stroke w)
      | _ => none
  | some (.str "line") =>
      match j.lookup "start", j.lookup "end" with
      | some a, some b => some (.line i false (decodePt a) (decodePt b) stroke w)
      | _, _ => none
  | some (.str "arrow") =>
      match j.lookup "start", j.lookup "end" with
      | some a, some b => some (.line i true (decodePt a) (decodePt b) stroke w)
      | _, _ => none
  | some (.str "measure") =>
      match j.lookup "start", j.lookup "end" with
      | some a, some b => some (.measure i (decodePt a) (decodePt b) stroke w)
      | _, _ => none
  | some (.str "rect") =>
      some (.rect i (decodeNum (j.lookup "x")) (decodeNum (j.lookup "y"))
        (decodeNum (j.lookup "w")) (decodeNum (j.lookup "h")) stroke w
        ((j.lookup "fill").map fun f => strOrEmpty (some f)))
  | some (.str "circle") =>
      some (.circle i (decodeNum (j.lookup "cx")) (decodeNum (j.lookup "cy"))
        (decodeNum (j.lookup "r")) stroke w
        ((j.lookup "fill").map fun f => strOrEmpty (some f)))
  | _ => none

/-- The items list assigned by the loader. -/
def castItems : Json → List Drawable
  | .arr xs => xs.filterMap decodeDrawable
  | _ => []

/-- The snapshot-settings object `{ ...base-closure-values,
...settingsOverride }` built by `pushHistory` for the loader call: each
field present in the payload settings object overrides the corresponding
closure value, `mmOv` is the `mmPerPx` the loader forces (branch 1:
`mmPerGrid / gridSize`; branch 3: the default `1`). -/
def mergedSettings (base : SnapSettings) (st : Json) (mmOv : Option ℚ) : SnapSettings :=
  { unit := match st.lookup "unit" with
      | some v => decodeUnit (some v)
      | none => base.unit
    gridSize := match st.lookup "gridSize" with
      | some v => decodeNum (some v)
      | none => base.gridSize
    mmPerPx := match mmOv with
      | some q => q
      | none => match st.lookup "mmPerPx" with
          | some v => decodeNum (some v)
          | none => base.mmPerPx
    snapEnabled := match st.lookup "snapEnabled" with
      | some v => truthy (some v)
      | none => base.snapEnabled
    fixedLength := match st.lookup "fixedLength" with
      | some v => some (strOrEmpty (some v))
      | none => base.fixedLength
    fixedWidth := match st.lookup "fixedWidth" with
      | some v => some (strOrEmpty (some v))
      | none => base.fixedWidth
    fixedHeight := match st.lookup "fixedHeight" with
      | some v => some (strOrEmpty (some v))
      | none => base.fixedHeight
    fixedDiameter := match st.lookup "fixedDiameter" with
      | some v => some (strOrEmpty (some v))
      | none => base.fixedDiameter
    angleSnapEnabled := match st.lookup "angleSnapEnabled" with
      | some v => neqFalse (some v)
      | none => base.angleSnapEnabled
    fixedAngle := match st.lookup "fixedAngle" with
      | some v => strOrEmpty (some v)
      | none => base.fixedAngle }

/-- The loader success path (everything in `onOpenFileSelected` after the
format guard): set the document, update the live settings per the three
`mmPerGrid` / `mmPerPx` compatibility branches, clear the selection, and
push one snapshot whose settings merge the pre-load values with the
payload.  Note that in the missing-`mmPerPx` branch the code computes
`newSettings = {...parsed.settings, mmPerPx: 1}` but never calls
`setMmPerPx`, so the live `mmPerPx` keeps its pre-load value while the
snapshot records `1`. -/
def loadSuccess (parsed : Json) (s : AppState) : AppState :=
  let newItems := castItems ((parsed.lookup "items").getD .null)
  let stJ := parsed.lookup "settings"
  let liveSettings :=
    if truthy stJ then
      let st := stJ.getD .null
      { unit := decodeUnit (st.lookup "unit")
        gridSize := decodeNum (st.lookup "gridSize")
        mmPerPx :=
          if truthy (st.lookup "mmPerGrid") then
            decodeNum (st.lookup "mmPerGrid") /
              (if truthy (st.lookup "gridSize") then decodeNum (st.lookup "gridSize") else 10)
          else if truthy (st.lookup "mmPerPx") then decodeNum (st.lookup "mmPerPx")
          else s.settings.mmPerPx
        snapEnabled := truthy (st.lookup "snapEnabled")
        fixedLength := strOrEmpty (st.lookup "fixedLength")
        fixedWidth := strOrEmpty (st.lookup "fixedWidth")
        fixedHeight := strOrEmpty (st.lookup "fixedHeight")
        fixedDiameter := strOrEmpty (st.lookup "fixedDiameter")
        angleSnapEnabled := neqFalse (st.lookup "angleSnapEnabled")
        fixedAngle := strOrEmpty (st.lookup "fixedAngle") }
    else
      { s.settings with
        fixedLength := "", fixedWidth := "", fixedHeight := "", fixedDiameter := "" }
  let snapSettings :=
    if truthy stJ then
      let st := stJ.getD .null
      let mmOv : Option ℚ :=
        if truthy (st.lookup "mmPerGrid") then
          some (decodeNum (st.lookup "mmPerGrid") /
            (if truthy (st.lookup "gridSize") then decodeNum (st.lookup "gridSize") else 10))
        else if truthy (st.lookup "mmPerPx") then none
        else some 1
      mergedSettings (toSnapSettings s.settings) st mmOv
    else toSnapSettings s.settings
  { items := newItems, selectedIds := [], settings := liveSettings
    history := pushSnap s.history
      { items := newItems, selectedIds := [], settings := snapSettings } }

/-- The `onOpenFileSelected` handler: `none` stands for text that
`JSON.parse` throws on (caught and reported as `Failed to open JSON`); a
parsed value failing the format guard is reported as
`Invalid JSON format`; in both cases the state is returned untouched.
The second component is the `alert` message, if any. -/
def onOpenFileSelected (j : Option Json) (s : AppState) : AppState × Option String :=
  match j with
  | none => (s, some "Failed to open JSON")
  | some parsed =>
      if hasItemsArray parsed then (loadSuccess parsed s, none)
      else (s, some "Invalid JSON format")

/-- The `snapToGrid` helper: identity when snapping is disabled,
otherwise each axis rounds to the nearest grid multiple
(`Math.round(v / gridSize) * gridSize`; JavaScript `Math.round` rounds
half-up, which is Lean `round`). -/
def snapToGrid (snapEnabled : Bool) (gridSize : ℚ) (p : Pt) : Pt :=
  if snapEnabled then
    ⟨(round (p.x / gridSize) : ℤ) * gridSize, (round (p.y / gridSize) : ℤ) * gridSize⟩
  else p

/-- The `shouldKeep` minimum-size test evaluated on pointer-up for a
draft shape; the `dist(start, end) > 6` comparisons are embedded as
their squares. -/
def shouldKeep (d : Drawable) : Bool :=
  match d with
  | .freehand _ pts _ _ => decide (pts.length > 2)
  | .line _ _ a b _ _ => decide (dist2 a b > 36)
  | .measure _ a b _ _ => decide (dist2 a b > 36)
  | .rect _ _ _ w h _ _ _ => decide (w > 6 ∧ h > 6)
  | .circle _ _ _ r _ _ _ => decide (r > 6)

/-- The drafting branch of `onPointerUp`: commit the draft (append to the
document, select it, push exactly one snapshot) iff `shouldKeep` accepts
it; otherwise only the transient draft is dropped and the state is
untouched. -/
def onPointerUpDraft (s : AppState) (d : Drawable) : AppState :=
  if shouldKeep d then
    { s with
      items := s.items ++ [d], selectedIds := [d.id]
      history := pushHistoryS s (s.items ++ [d]) [d.id] none }
  else s

/-- Write the fill colour of a shape, as the `fill` tool does: only
rects and circles carry a fill. -/
def setFill (d : Drawable) (color : String) : Drawable :=
  match d with
  | .rect i x y w h st wd _ => .rect i x y w h st wd (some color)
  | .circle i cx cy r st wd _ => .circle i cx cy r st wd (some color)
  | _ => d

/-- One step of the `resizing` pointer-move branch applied to a single
item, from the captured baseline `startItem` and the (grid-snapped)
pointer `p`.  The TS cast `rs.startItem as typeof it` is modelled by
matching the baseline against the variant of the item; a mismatched
baseline (impossible in a run, the baseline is a deep copy of the
selected item) leaves the item unchanged.  The circle branch sets the
radius to `dist(baselineCenter, p)`, an irrational number in general;
since no settled claim observes the radius value, the rational embedding
stores the squared distance instead — the shape identity and structure,
which the claims do observe, are unaffected. -/
def resizeDrawable (h : RHandle) (startItem : Drawable) (p : Pt) (it : Drawable) : Drawable :=
  match it with
  | .rect i _ _ _ _ st wd fl =>
      match startItem with
      | .rect _ x y w hh _ _ _ =>
          match h with
          | .nw =>
              let newX := min p.x (x + w)
              let newY := min p.y (y + hh)
              .rect i newX y (x + w - newX) (y + hh - newY) st wd fl
          | .ne =>
              let newY := min p.y (y + hh)
              .rect i x newY (max 0 (p.x - x)) (y + hh - newY) st wd fl
          | .sw =>
              let newX := min p.x (x + w)
              .rect i newX y (x + w - newX) (max 0 (p.y - y)) st wd fl
          | .se => .rect i x y (max 0 (p.x - x)) (max 0 (p.y - y)) st wd fl
          | _ => .rect i x y w hh st wd fl
      | _ => it
  | .circle i _ _ _ st wd fl =>
      match startItem with
      | .circle _ cx cy _ _ _ _ => .circle i cx cy (dist2 ⟨cx, cy⟩ p) st wd fl
      | _ => it
  | .line i ar a b st wd =>
      match h with
      | .hstart => .line i ar p b st wd
      | .hend => .line i ar a p st wd
      | _ => it
  | .measure i a b st wd =>
      match h with
      | .hstart => .measure i p b st wd
      | .hend => .measure i a p st wd
      | _ => it
  | _ => it

/-- The target-resolution rule shared by the `eraser` and `fill` tools:
if something is hit and it belongs to a non-empty current selection, the
whole selection is targeted; otherwise just the hit shape (or nothing). -/
def resolveTargets (s : AppState) (idO : Option String) : List String :=
  if !s.selectedIds.isEmpty &&
      (match idO with
       | some i => s.selectedIds.contains i
       | none => false) then
    s.selectedIds
  else
    match idO with
    | some i => [i]
    | none => []

/-- The discrete operations of the gesture state machine that complete
(or update) a user action, each embedding the corresponding handler
branch of the component.  `duplicateSel` takes the stream of fresh ids
`uid()` mints. -/
inductive Op where
  | selectAt (p : Pt) (multi : Bool)
  | moveDown (p : Pt)
  | moveBy (dx dy : ℚ)
  | resizeMove (handle : RHandle) (startItem : Drawable) (p : Pt)
  | pointerUpCommit
  | commitDraft (d : Drawable)
  | fillAt (p : Pt) (color : String)
  | eraseAt (p : Pt)
  | deleteSel
  | duplicateSel (fresh : ℕ → String)
  | loadDoc (j : Option Json)
  | undoOp
  | redoOp

/-- Apply one operation to the component state. -/
def applyOp (op : Op) (s : AppState) : AppState :=
  match op with
  | .selectAt p multi =>
      let clicked := pickTop s.items p
      if multi then
        match clicked with
        | some i =>
            { s with selectedIds :=
                if s.selectedIds.contains i then s.selectedIds.filter (fun x => x ≠ i)
                else s.selectedIds ++ [i] }
        | none => s
      else
        { s with selectedIds := match clicked with | some i => [i] | none => [] }
  | .moveDown p =>
      match pickTop s.items p with
      | some i => if s.selectedIds.contains i then s else { s with selectedIds := [i] }
      | none => s
  | .moveBy dx dy =>
      if s.selectedIds.isEmpty then s
      else
        { s with items := s.items.map fun it =>
            if s.selectedIds.contains it.id then translateDrawable it dx dy else it }
  | .resizeMove h st p =>
      let q := snapToGrid s.settings.snapEnabled s.settings.gridSize p
      { s with items := s.items.map fun it =>
          if s.selectedIds.contains it.id then resizeDrawable h st q it else it }
  | .pointerUpCommit =>
      { s with history := pushHistoryS s s.items s.selectedIds none }
  | .commitDraft d => onPointerUpDraft s d
  | .fillAt p color =>
      let targets := resolveTargets s (pickTop s.items p)
      if targets.isEmpty then s
      else
        let next := s.items.map fun it =>
          if targets.contains it.id then setFill it color else it
        { s with
          items := next, selectedIds := targets
          history := pushHistoryS s next targets none }
  | .eraseAt p =>
      let targets := resolveTargets s (pickTop s.items p)
      if targets.isEmpty then s
      else
        let next := s.items.filter fun it => !targets.contains it.id
        { s with
          items := next, selectedIds := []
          history := pushHistoryS s next [] none }
  | .deleteSel =>
      if s.selectedIds.isEmpty then s
      else
        let next := s.items.filter fun it => !s.selectedIds.contains it.id
        { s with
          items := next, selectedIds := []
          history := pushHistoryS s next [] none }
  | .duplicateSel fresh =>
      if s.selectedIds.isEmpty then s
      else
        let found := s.selectedIds.filterMap fun i => s.items.find? fun it => it.id == i
        let clones := found.enum.map fun ki => translateDrawable (ki.2.setId (fresh ki.1)) 10 10
        let nextItems := s.items ++ clones
        let nextSel := clones.map Drawable.id
        { s with
          items := nextItems, selectedIds := nextSel
          history := pushHistoryS s nextItems nextSel none }
  | .loadDoc j => (onOpenFileSelected j s).1
  | .undoOp => undo s
  | .redoOp => redo s

/-- The view-scale updates of the component: a pinch recomputation
(`Math.min(3.0, Math.max(0.5, view.scale * (d / lastPinchDist)))`), the
two zoom buttons, and the reset button. -/
inductive ScaleOp where
  | pinch (lastDist d : ℚ)
  | zoomIn
  | zoomOut
  | resetView

/-- Apply one scale update to the current scale. -/
def stepScale (s : ℚ) (op : ScaleOp) : ℚ :=
  match op with
  | .pinch lastDist d => min 3 (max (1 / 2) (s * (d / lastDist)))
  | .zoomIn => min 3 (s + 1 / 10)
  | .zoomOut => max (1 / 2) (s - 1 / 10)
  | .resetView => 1

/-- A real-valued point, for the transcendental angle-snapping helper. -/
structure RPt where
  x : ℝ
  y : ℝ

/-- Euclidean distance over ℝ, the TS `dist` / `Math.hypot`. -/
noncomputable def distR (a b : RPt) : ℝ :=
  Real.sqrt ((a.x - b.x) ^ 2 + (a.y - b.y) ^ 2)

/-- JavaScript `Math.atan2(y, x)` on the reals. -/
noncomputable def atan2R (y x : ℝ) : ℝ :=
  if 0 < x then Real.arctan (y / x)
  else if x < 0 then
    if 0 ≤ y then Real.arctan (y / x) + Real.pi
    else Real.arctan (y / x) - Real.pi
  else
    if 0 < y then Real.pi / 2
    else if y < 0 then -(Real.pi / 2)
    else 0

/-- The component `snapAngle` helper: identity when snapping is disabled
or the endpoints are closer than 4 units; otherwise rounds the direction
angle to the nearest multiple of 45 degrees (π/4) and rebuilds the
endpoint at the same distance from `s`. -/
noncomputable def snapAngle (snapEnabled : Bool) (s e : RPt) : RPt :=
  if snapEnabled then
    let dx := e.x - s.x
    let dy := e.y - s.y
    let d := Real.sqrt (dx ^ 2 + dy ^ 2)
    if d < 4 then e
    else
      let angle := atan2R dy dx
      let snapped := (round (angle / (Real.pi / 4)) : ℤ) * (Real.pi / 4)
      ⟨s.x + Real.cos snapped * d, s.y + Real.sin snapped * d⟩
  else e

/-- Default live settings: the values of the `useState` initialisers. -/
def defaultLive : AppSettings :=
  restoreSettings initialSnapshot.settings

/-- A freshly initialised component state (after the initial-history
effect has run). -/
def emptyState : AppState :=
  { items := [], selectedIds := [], settings := defaultLive
    history := { snapshots := [initialSnapshot], cursor := 0 } }

lemma dist2_nonneg (a b : Pt) : 0 ≤ dist2 a b := by
  unfold dist2; positivity

lemma dist2_eq_zero_iff (a b : Pt) : dist2 b a = 0 ↔ a = b := by
  unfold dist2
  constructor
  · intro h
    have hx : (b.x - a.x) ^ 2 = 0 := by nlinarith [sq_nonneg (b.x - a.x), sq_nonneg (b.y - a.y)]
    have hy : (b.y - a.y) ^ 2 = 0 := by nlinarith [sq_nonneg (b.x - a.x), sq_nonneg (b.y - a.y)]
    have hx' : a.x = b.x := by nlinarith [sq_nonneg (b.x - a.x)]
    have hy' : a.y = b.y := by nlinarith [sq_nonneg (b.y - a.y)]
    cases a; cases b; simp_all
  · rintro rfl; ring

/-- C10: `distancePointToSegment` is total and safe — its value is
non-negative; on a degenerate segment (`a = b`, squared length 0) it is
the plain (squared) distance to `a`, so no division by zero is reached;
otherwise the divisor of the projection parameter is non-zero, the
clamped parameter lies in `[0, 1]`, and the result is the (squared)
distance to the clamped projection. -/
theorem distancePointToSegment2_total_and_safe (p a b : Pt) :
    0 ≤ distancePointToSegment2 p a b ∧
    (a = b → distancePointToSegment2 p a b = dist2 p a) ∧
    (a ≠ b →
      (b.x - a.x) ^ 2 + (b.y - a.y) ^ 2 ≠ 0 ∧
      0 ≤ segParam p a b ∧ segParam p a b ≤ 1 ∧
      distancePointToSegment2 p a b = dist2 p (projPoint p a b)) := by
  have hab : (b.x - a.x) ^ 2 + (b.y - a.y) ^ 2 = dist2 b a := by unfold dist2; ring
  refine ⟨?_, ?_, ?_⟩
  · unfold distancePointToSegment2
    split <;> exact dist2_nonneg _ _
  · rintro rfl
    unfold distancePointToSegment2
    rw [if_pos (by ring)]
  · intro hne
    have hz : (b.x - a.x) ^ 2 + (b.y - a.y) ^ 2 ≠ 0 := by
      rw [hab]; exact fun h => hne ((dist2_eq_zero_iff a b).mp h)
    refine ⟨hz, le_max_left _ _, ?_, ?_⟩
    · exact max_le (by norm_num) (le_trans (min_le_left _ _) le_rfl)
    · unfold distancePointToSegment2
      rw [if_neg hz]

/-- Closed witness for the previous theorem at a concrete non-degenerate
segment. -/
theorem distancePointToSegment2_total_and_safe_witness :
    0 ≤ distancePointToSegment2 ⟨0, 0⟩ ⟨0, 0⟩ ⟨1, 0⟩ ∧
    0 ≤ segParam ⟨0, 0⟩ ⟨0, 0⟩ ⟨1, 0⟩ ∧ segParam ⟨0, 0⟩ ⟨0, 0⟩ ⟨1, 0⟩ ≤ 1 :=
  ⟨(distancePointToSegment2_total_and_safe ⟨0, 0⟩ ⟨0, 0⟩ ⟨1, 0⟩).1,
   ((distancePointToSegment2_total_and_safe ⟨0, 0⟩ ⟨0, 0⟩ ⟨1, 0⟩).2.2 (by decide)).2.1,
   ((distancePointToSegment2_total_and_safe ⟨0, 0⟩ ⟨0, 0⟩ ⟨1, 0⟩).2.2 (by decide)).2.2.1⟩

/-- C6: `hitTest` on line-like shapes compares the point-to-segment
distance (clamped projection) against `tol = max(8, width*2)` — stated
over squares — and on the concrete line from (0,0) to (100,0) with width
4 it accepts (50,7) and rejects (50,9). -/
theorem hitTest_line_tolerance :
    (∀ (i : String) (ar : Bool) (a b : Pt) (st : String) (w : ℚ) (p : Pt),
      hitTest (.line i ar a b st w) p =
        decide (distancePointToSegment2 p a b ≤ (max 8 (w * 2)) ^ 2)) ∧
    (∀ (i : String) (a b : Pt) (st : String) (w : ℚ) (p : Pt),
      hitTest (.measure i a b st w) p =
        decide (distancePointToSegment2 p a b ≤ (max 8 (w * 2)) ^ 2)) ∧
    hitTest (.line "l1" false ⟨0, 0⟩ ⟨100, 0⟩ "#111" 4) ⟨50, 7⟩ = true ∧
    hitTest (.line "l1" false ⟨0, 0⟩ ⟨100, 0⟩ "#111" 4) ⟨50, 9⟩ = false := by
  refine ⟨fun _ _ _ _ _ _ _ => rfl, fun _ _ _ _ _ _ => rfl, ?_, ?_⟩ <;>
  · simp only [hitTest, Drawable.width, decide_eq_true_eq, decide_eq_false_iff_not]
    norm_num [distancePointToSegment2, dist2, projPoint, segParam, segParamRaw]

/-- C1: `pushHistory` truncates the snapshot list to the prefix ending
at the cursor and appends the new snapshot; afterwards the cursor is at
the last position, so `canRedo` is false — in particular a committed
action after an `undo` discards the redo branch. -/
theorem pushSnap_truncates_and_disables_redo (h : History) (snap : Snapshot)
    (hc : 0 ≤ h.cursor) :
    (pushSnap h snap).snapshots = h.snapshots.take (h.cursor + 1).toNat ++ [snap] ∧
    canRedo (pushSnap h snap) = false := by
  refine ⟨rfl, ?_⟩
  simp only [canRedo, pushSnap, List.length_append, List.length_take,
    List.length_singleton, decide_eq_false_iff_not, not_lt]
  have h1 : ((h.cursor + 1).toNat : ℤ) = h.cursor + 1 := Int.toNat_of_nonneg (by omega)
  have h2 : min ((h.cursor + 1).toNat) h.snapshots.length ≤ (h.cursor + 1).toNat :=
    Nat.min_le_left _ _
  omega

/-- Closed witness: pushing onto the freshly initialised history. -/
theorem pushSnap_truncates_and_disables_redo_witness :
    canRedo (pushSnap { snapshots := [initialSnapshot], cursor := 0 } initialSnapshot)
      = false :=
  (pushSnap_truncates_and_disables_redo
    { snapshots := [initialSnapshot], cursor := 0 } initialSnapshot (by decide)).2

/-- C3: a document payload that is malformed JSON, or whose parse result
is not an object with an `items` array, is rejected with a user-visible
error message and the whole state (document, selection, settings,
history) is returned untouched. -/
theorem load_rejects_invalid_unchanged (s : AppState) :
    onOpenFileSelected none s = (s, some "Failed to open JSON") ∧
    ∀ j : Json, hasItemsArray j = false →
      onOpenFileSelected (some j) s = (s, some "Invalid JSON format") := by
  refine ⟨rfl, fun j hj => ?_⟩
  simp [onOpenFileSelected, hj]

/-- Closed witness: an object whose `items` field is a number. -/
theorem load_rejects_invalid_unchanged_witness :
    hasItemsArray (.obj [("items", .num 5)]) = false ∧
    onOpenFileSelected (some (.obj [("items", .num 5)])) emptyState =
      (emptyState, some "Invalid JSON format") :=
  ⟨rfl, (load_rejects_invalid_unchanged emptyState).2 _ rfl⟩

/-- The legacy all-freehand payload `[[{x:0,y:0},{x:1,y:1}]]`. -/
def legacyPayload : Json :=
  .arr [.arr [.obj [("x", .num 0), ("y", .num 0)],
              .obj [("x", .num 1), ("y", .num 1)]]]

/-- C4 counterexample: loading the legacy array-of-point-arrays payload
does not produce a one-freehand document — the loader rejects it with
`Invalid JSON format` and leaves the (empty) document unchanged. -/
theorem legacy_point_array_payload_rejected :
    onOpenFileSelected (some legacyPayload) emptyState =
      (emptyState, some "Invalid JSON format") ∧
    (onOpenFileSelected (some legacyPayload) emptyState).1.items = [] := by
  constructor <;> rfl

/-- C4 (amended): every bare-array payload — shapes or legacy point
arrays alike — is rejected by the format guard with the
`Invalid JSON format` error, the state left untouched; only an object
envelope with an `items` array is accepted. -/
theorem bare_array_payload_always_rejected (xs : List Json) (s : AppState) :
    onOpenFileSelected (some (.arr xs)) s = (s, some "Invalid JSON format") := by
  simp [onOpenFileSelected, hasItemsArray]

lemma stepScale_mem (s : ℚ) (op : ScaleOp) (h1 : 1 / 2 ≤ s) (h2 : s ≤ 3) :
    1 / 2 ≤ stepScale s op ∧ stepScale s op ≤ 3 := by
  cases op with
  | pinch lastDist d =>
      exact ⟨le_min (by norm_num) (le_max_left _ _), min_le_left _ _⟩
  | zoomIn => exact ⟨le_min (by norm_num) (by linarith), min_le_left _ _⟩
  | zoomOut => exact ⟨le_max_left _ _, max_le (by norm_num) (by linarith)⟩
  | resetView => norm_num [stepScale]

lemma foldl_stepScale_mem (ops : List ScaleOp) (s : ℚ)
    (h1 : 1 / 2 ≤ s) (h2 : s ≤ 3) :
    1 / 2 ≤ ops.foldl stepScale s ∧ ops.foldl stepScale s ≤ 3 := by
  induction ops generalizing s with
  | nil => exact ⟨h1, h2⟩
  | cons op rest ih =>
      obtain ⟨g1, g2⟩ := stepScale_mem s op h1 h2
      exact ih _ g1 g2

/-- C8: every view-scale update clamps into `[0.5, 3.0]` — a pinch
recomputation lands in the interval unconditionally — so no sequence of
pinch or zoom-button gestures started from the initial scale 1 ever
drives the scale above 3.0 or below 0.5. -/
theorem scale_always_clamped :
    (∀ (s lastDist d : ℚ),
      1 / 2 ≤ stepScale s (.pinch lastDist d) ∧ stepScale s (.pinch lastDist d) ≤ 3) ∧
    (∀ ops : List ScaleOp,
      1 / 2 ≤ ops.foldl stepScale 1 ∧ ops.foldl stepScale 1 ≤ 3) := by
  constructor
  · intro s lastDist d
    exact ⟨le_min (by norm_num) (le_max_left _ _), min_le_left _ _⟩
  · intro ops
    exact foldl_stepScale_mem ops 1 (by norm_num) (by norm_num)

/-- C5: the drafting pointer-up commits the draft — appending it to the
document, selecting it, and pushing exactly one snapshot — iff the draft
clears the per-kind minimum-size threshold (freehand: more than 2
points; line/arrow/measure: squared endpoint distance above 36, i.e.
distance above 6; rect: w and h above 6; circle: r above 6); otherwise
the state is left completely unchanged. -/
theorem commitDraft_minimum_size (s : AppState) (d : Drawable) :
    (shouldKeep d = false → onPointerUpDraft s d = s) ∧
    (shouldKeep d = true →
      (onPointerUpDraft s d).items = s.items ++ [d] ∧
      (onPointerUpDraft s d).selectedIds = [d.id] ∧
      (onPointerUpDraft s d).history =
        pushSnap s.history
          { items := s.items ++ [d], selectedIds := [d.id]
            settings := toSnapSettings s.settings }) ∧
    (onPointerUpDraft s d = s ↔ shouldKeep d = false) ∧
    (∀ i pts st w, shouldKeep (.freehand i pts st w) = decide (pts.length > 2)) ∧
    (∀ i ar a b st w, shouldKeep (.line i ar a b st w) = decide (dist2 a b > 36)) ∧
    (∀ i a b st w, shouldKeep (.measure i a b st w) = decide (dist2 a b > 36)) ∧
    (∀ i x y w h st wd fl, shouldKeep (.rect i x y w h st wd fl) = decide (w > 6 ∧ h > 6)) ∧
    (∀ i cx cy r st wd fl, shouldKeep (.circle i cx cy r st wd fl) = decide (r > 6)) := by
  have hdrop : shouldKeep d = false → onPointerUpDraft s d = s := by
    intro hk; simp [onPointerUpDraft, hk]
  have hkeep : shouldKeep d = true → onPointerUpDraft s d ≠ s := by
    intro hk heq
    have hlen := congrArg (fun st => st.items.length) heq
    simp [onPointerUpDraft, hk] at hlen
  refine ⟨hdrop, ?_, ?_, fun _ _ _ _ => rfl, fun _ _ _ _ _ _ => rfl,
    fun _ _ _ _ _ => rfl, fun _ _ _ _ _ _ _ _ => rfl, fun _ _ _ _ _ _ _ => rfl⟩
  · intro hk
    refine ⟨?_, ?_, ?_⟩ <;> simp [onPointerUpDraft, hk, pushHistoryS]
  · constructor
    · intro heq
      cases hk : shouldKeep d with
      | false => rfl
      | true => exact absurd heq (hkeep hk)
    · exact hdrop

/-- A rect draft with `w = 3, h = 3`, below the minimum size. -/
def rectDraft33 : Drawable := .rect "r1" 0 0 3 3 "#111" 4 none

/-- Closed witness: the undersized rect draft is discarded silently,
leaving document and history unchanged. -/
theorem commitDraft_minimum_size_witness :
    shouldKeep rectDraft33 = false ∧ onPointerUpDraft emptyState rectDraft33 = emptyState :=
  ⟨by decide, (commitDraft_minimum_size emptyState rectDraft33).1 (by decide)⟩

/-- A state whose live `mmPerPx` is 2 (all other settings default) with
a freshly initialised history. -/
def preLoadState : AppState :=
  { items := [], selectedIds := []
    settings := { defaultLive with mmPerPx := 2 }
    history := { snapshots := [initialSnapshot], cursor := 0 } }

/-- A well-formed document payload whose settings object carries neither
`mmPerPx` nor `mmPerGrid`. -/
def payloadNoMmPerPx : Json :=
  .obj [("version", .num 1), ("items", .arr []),
        ("settings", .obj [("unit", .str "mm"), ("gridSize", .num 10),
                           ("snapEnabled", .bool true),
                           ("angleSnapEnabled", .bool true),
                           ("fixedAngle", .str "")])]

/-- The Selection invariant: every selected id names a shape currently
present in the document. -/
def selOk (items : List Drawable) (sel : List String) : Prop :=
  ∀ i ∈ sel, i ∈ items.map Drawable.id

/-- The state invariant of C9: the live selection and every stored
snapshot satisfy `selOk`. -/
def invariant (s : AppState) : Prop :=
  selOk s.items s.selectedIds ∧
  ∀ sn ∈ s.history.snapshots, selOk sn.items sn.selectedIds

lemma selOk_nil (items : List Drawable) : selOk items [] := by
  simp [selOk]

lemma selOk_singleton {items : List Drawable} {i : String}
    (h : i ∈ items.map Drawable.id) : selOk items [i] := by
  intro x hx
  simp only [List.mem_singleton] at hx
  exact hx ▸ h

lemma selOk_mono {items : List Drawable} {sel sel' : List String}
    (hsub : ∀ i ∈ sel', i ∈ sel) (h : selOk items sel) : selOk items sel' :=
  fun i hi => h i (hsub i hi)

lemma pickTop_mem {items : List Drawable} {p : Pt} {i : String}
    (h : pickTop items p = some i) : i ∈ items.map Drawable.id := by
  unfold pickTop at h
  cases hf : items.reverse.find? (fun d => hitTest d p) with
  | none => simp [hf] at h
  | some d =>
      have hd : d ∈ items.reverse := List.mem_of_find?_eq_some hf
      rw [List.mem_reverse] at hd
      have hdi : d.id = i := by simpa [hf] using h
      exact hdi ▸ List.mem_map_of_mem _ hd

lemma map_ids_eq {f : Drawable → Drawable} (hf : ∀ d, (f d).id = d.id)
    (items : List Drawable) :
    (items.map f).map Drawable.id = items.map Drawable.id := by
  induction items with
  | nil => rfl
  | cons x xs ih => simp [hf x, ih]

lemma selOk_map {items : List Drawable} {sel : List String} {f : Drawable → Drawable}
    (hf : ∀ d, (f d).id = d.id) (h : selOk items sel) : selOk (items.map f) sel := by
  intro i hi
  rw [map_ids_eq hf]
  exact h i hi

lemma translateDrawable_id (d : Drawable) (dx dy : ℚ) :
    (translateDrawable d dx dy).id = d.id := by
  cases d <;> rfl

lemma setFill_id (d : Drawable) (c : String) : (setFill d c).id = d.id := by
  cases d <;> rfl

lemma resizeDrawable_id (h : RHandle) (st : Drawable) (p : Pt) (it : Drawable) :
    (resizeDrawable h st p it).id = it.id := by
  cases it <;> cases st <;> cases h <;> rfl

lemma mem_pushSnap {h : History} {snap sn : Snapshot}
    (hm : sn ∈ (pushSnap h snap).snapshots) : sn ∈ h.snapshots ∨ sn = snap := by
  unfold pushSnap at hm
  rcases List.mem_append.mp hm with h1 | h2
  · exact Or.inl (List.take_subset _ _ h1)
  · simp only [List.mem_singleton] at h2
    exact Or.inr h2

lemma histOk_pushSnap {h : History} {snap : Snapshot}
    (hh : ∀ sn ∈ h.snapshots, selOk sn.items sn.selectedIds)
    (hs : selOk snap.items snap.selectedIds) :
    ∀ sn ∈ (pushSnap h snap).snapshots, selOk sn.items sn.selectedIds := by
  intro sn hm
  rcases mem_pushSnap hm with h1 | rfl
  · exact hh sn h1
  · exact hs

lemma selOk_getD {h : History}
    (hh : ∀ sn ∈ h.snapshots, selOk sn.items sn.selectedIds) (n : ℕ) :
    selOk (h.snapshots.getD n initialSnapshot).items
      (h.snapshots.getD n initialSnapshot).selectedIds := by
  rw [List.getD_eq_getElem?_getD]
  cases hx : h.snapshots[n]? with
  | none => exact selOk_nil _
  | some sn => exact hh sn (List.getElem?_mem hx)

lemma selOk_resolveTargets {s : AppState} {idO : Option String}
    (hs : selOk s.items s.selectedIds)
    (hid : ∀ i, idO = some i → i ∈ s.items.map Drawable.id) :
    selOk s.items (resolveTargets s idO) := by
  unfold resolveTargets
  split
  · exact hs
  · cases idO with
    | none => exact selOk_nil _
    | some i => exact selOk_singleton (hid i rfl)

/-- C9: every discrete operation of the gesture state machine — select,
draft commit, move, resize, the move/resize pointer-up commit, fill,
erase, delete, duplicate, load, undo and redo — preserves the invariant
that every selected id refers to a shape present in the document (both
in the live state and in every stored snapshot); deleting or erasing
shapes in particular resets the selection. -/
theorem applyOp_preserves_selection_invariant (op : Op) (s : AppState)
    (h : invariant s) : invariant (applyOp op s) := by
  obtain ⟨hsel, hhist⟩ := h
  cases op with
  | selectAt p multi =>
      cases multi with
      | false =>
          cases hp : pickTop s.items p with
          | none => simp only [applyOp, hp]; exact ⟨selOk_nil _, hhist⟩
          | some i => simp only [applyOp, hp]; exact ⟨selOk_singleton (pickTop_mem hp), hhist⟩
      | true =>
          cases hp : pickTop s.items p with
          | none => simp only [applyOp, hp]; exact ⟨hsel, hhist⟩
          | some i =>
              by_cases hc : i ∈ s.selectedIds
              · simp [applyOp, hp, hc]
                exact ⟨selOk_mono (fun x hx => List.filter_subset' _ hx) hsel, hhist⟩
              · simp [applyOp, hp, hc]
                refine ⟨?_, hhist⟩
                intro x hx
                rcases List.mem_append.mp hx with h1 | h2
                · exact hsel x h1
                · simp only [List.mem_singleton] at h2
                  subst h2
                  exact pickTop_mem hp
  | moveDown p =>
      cases hp : pickTop s.items p with
      | none => simp only [applyOp, hp]; exact ⟨hsel, hhist⟩
      | some i =>
          simp only [applyOp, hp]
          split
          · exact ⟨hsel, hhist⟩
          · exact ⟨selOk_singleton (pickTop_mem hp), hhist⟩
  | moveBy dx dy =>
      simp only [applyOp]
      split
      · exact ⟨hsel, hhist⟩
      · refine ⟨selOk_map (fun d => ?_) hsel, hhist⟩
        dsimp only
        split
        · exact translateDrawable_id _ _ _
        · rfl
  | resizeMove hd st p =>
      refine ⟨selOk_map (fun d => ?_) hsel, hhist⟩
      dsimp only
      split
      · exact resizeDrawable_id _ _ _ _
      · rfl
  | pointerUpCommit =>
      exact ⟨hsel, histOk_pushSnap hhist hsel⟩
  | commitDraft d =>
      simp only [applyOp]
      unfold onPointerUpDraft
      split
      · have hd : selOk (s.items ++ [d]) [d.id] := by
          refine selOk_singleton ?_
          rw [List.map_append]
          exact List.mem_append_right _ (by simp)
        exact ⟨hd, histOk_pushSnap hhist hd⟩
      · exact ⟨hsel, hhist⟩
  | fillAt p color =>
      simp only [applyOp]
      have hTgt : selOk s.items (resolveTargets s (pickTop s.items p)) :=
        selOk_resolveTargets hsel (fun i hi => pickTop_mem hi)
      have hid : ∀ d : Drawable,
          ((fun it => if (resolveTargets s (pickTop s.items p)).contains it.id then
            setFill it color else it) d).id = d.id := by
        intro d
        dsimp only
        split
        · exact setFill_id _ _
        · rfl
      split
      · exact ⟨hsel, hhist⟩
      · exact ⟨selOk_map hid hTgt, histOk_pushSnap hhist (selOk_map hid hTgt)⟩
  | eraseAt p =>
      simp only [applyOp]
      split
      · exact ⟨hsel, hhist⟩
      · exact ⟨selOk_nil _, histOk_pushSnap hhist (selOk_nil _)⟩
  | deleteSel =>
      simp only [applyOp]
      split
      · exact ⟨hsel, hhist⟩
      · exact ⟨selOk_nil _, histOk_pushSnap hhist (selOk_nil _)⟩
  | duplicateSel fresh =>
      simp only [applyOp]
      split
      · exact ⟨hsel, hhist⟩
      · have hcl : selOk
            (s.items ++ ((s.selectedIds.filterMap fun i =>
              s.items.find? fun it => it.id == i).enum.map
                fun ki => translateDrawable (ki.2.setId (fresh ki.1)) 10 10))
            (((s.selectedIds.filterMap fun i =>
              s.items.find? fun it => it.id == i).enum.map
                fun ki => translateDrawable (ki.2.setId (fresh ki.1)) 10 10).map
                  Drawable.id) := by
          intro x hx
          rw [List.map_append]
          exact List.mem_append_right _ hx
        exact ⟨hcl, histOk_pushSnap hhist hcl⟩
  | loadDoc j =>
      cases j with
      | none => exact ⟨hsel, hhist⟩
      | some parsed =>
          simp only [applyOp, onOpenFileSelected]
          split
          · exact ⟨selOk_nil _, histOk_pushSnap hhist (selOk_nil _)⟩
          · exact ⟨hsel, hhist⟩
  | undoOp =>
      simp only [applyOp]
      unfold undo
      split
      · exact ⟨selOk_getD hhist _, hhist⟩
      · exact ⟨hsel, hhist⟩
  | redoOp =>
      simp only [applyOp]
      unfold redo
      split
      · exact ⟨selOk_getD hhist _, hhist⟩
      · exact ⟨hsel, hhist⟩

/-- Closed witness: deleting the (empty) selection in the initial state
keeps the invariant. -/
theorem applyOp_preserves_selection_invariant_witness :
    invariant (applyOp .deleteSel emptyState) :=
  applyOp_preserves_selection_invariant .deleteSel emptyState
    (by constructor <;> simp [selOk, emptyState, initialSnapshot])

/-- C2 (code bug): loading a payload whose settings omit `mmPerPx` is a
committed action after which `undo()` then `redo()` does not restore the
state — the loader records the default `mmPerPx = 1` in the pushed
snapshot but forgets to update the live value (no `setMmPerPx(1)` in
that branch), so the live state keeps `mmPerPx = 2` while the redo lands
on `mmPerPx = 1`. -/
theorem undo_redo_not_inverse_after_load :
    (onOpenFileSelected (some payloadNoMmPerPx) preLoadState).1.settings.mmPerPx = 2 ∧
    (redo (undo (onOpenFileSelected (some payloadNoMmPerPx) preLoadState).1)).settings.mmPerPx
      = 1 ∧
    redo (undo (onOpenFileSelected (some payloadNoMmPerPx) preLoadState).1) ≠
      (onOpenFileSelected (some payloadNoMmPerPx) preLoadState).1 := by
  refine ⟨by decide, by decide, ?_⟩
  intro heq
  have := congrArg (fun st => st.settings.mmPerPx) heq
  revert this
  decide

lemma distR_swap (s e : RPt) :
    Real.sqrt ((e.x - s.x) ^ 2 + (e.y - s.y) ^ 2) = distR s e := by
  unfold distR
  rw [show (s.x - e.x) ^ 2 + (s.y - e.y) ^ 2 = (e.x - s.x) ^ 2 + (e.y - s.y) ^ 2 by ring]

lemma snapAngle_preserves_dist (en : Bool) (s e : RPt) :
    distR s (snapAngle en s e) = distR s e := by
  cases en with
  | false => rfl
  | true =>
      simp only [snapAngle, if_true]
      by_cases hd : Real.sqrt ((e.x - s.x) ^ 2 + (e.y - s.y) ^ 2) < 4
      · rw [if_pos hd]
      · rw [if_neg hd]
        set d := Real.sqrt ((e.x - s.x) ^ 2 + (e.y - s.y) ^ 2) with hdd
        set th := ((round (atan2R (e.y - s.y) (e.x - s.x) / (Real.pi / 4)) : ℤ) : ℝ) *
          (Real.pi / 4) with hth
        have harg : (s.x - (s.x + Real.cos th * d)) ^ 2 + (s.y - (s.y + Real.sin th * d)) ^ 2
            = d ^ 2 * ((Real.sin th) ^ 2 + (Real.cos th) ^ 2) := by ring
        show Real.sqrt
            ((s.x - (s.x + Real.cos th * d)) ^ 2 + (s.y - (s.y + Real.sin th * d)) ^ 2)
          = distR s e
        rw [harg, Real.sin_sq_add_cos_sq, mul_one, Real.sqrt_sq_eq_abs,
          abs_of_nonneg (Real.sqrt_nonneg _)]
        exact distR_swap s e

lemma sqrt101_ge_4 : ¬ (Real.sqrt 101 < 4) := by
  rw [not_lt]
  nlinarith [Real.sq_sqrt (show (0:ℝ) ≤ 101 by norm_num), Real.sqrt_nonneg (101:ℝ)]

lemma arctan_tenth_lt_pi_div_eight : Real.arctan (1 / 10) < Real.pi / 8 := by
  have h08 : (0:ℝ) < Real.pi / 8 := by positivity
  have h18 : Real.pi / 8 < Real.pi / 2 := by nlinarith [Real.pi_pos]
  have htan : Real.pi / 8 < Real.tan (Real.pi / 8) := Real.lt_tan h08 h18
  have h110 : (1:ℝ) / 10 < Real.tan (Real.pi / 8) := by nlinarith [Real.pi_gt_three]
  have harc := Real.arctan_strictMono h110
  rwa [Real.arctan_tan (by linarith [Real.pi_pos]) h18] at harc

lemma round_ratio_zero : round (Real.arctan (1 / 10) / (Real.pi / 4)) = 0 := by
  have hpos : (0:ℝ) < Real.pi / 4 := by positivity
  have h0 : 0 < Real.arctan (1 / 10) := by
    have harc := Real.arctan_strictMono (show (0:ℝ) < 1 / 10 by norm_num)
    rwa [Real.arctan_zero] at harc
  rw [round_eq_zero_iff]
  constructor
  · have hr : 0 ≤ Real.arctan (1 / 10) / (Real.pi / 4) := div_nonneg h0.le hpos.le
    simp only [Set.mem_Ico] at *
    linarith
  · rw [div_lt_iff₀ hpos]
    have harc := arctan_tenth_lt_pi_div_eight
    linarith

lemma snapAngle_concrete :
    snapAngle true ⟨0, 0⟩ ⟨10, 1⟩ = ⟨Real.sqrt 101, 0⟩ := by
  simp only [snapAngle, if_true]
  norm_num
  rw [if_neg sqrt101_ge_4]
  have hat : atan2R 1 10 = Real.arctan (1 / 10) := by
    rw [atan2R, if_pos (by norm_num : (0:ℝ) < 10)]
  rw [hat, round_ratio_zero]
  norm_num [Real.cos_zero, Real.sin_zero]

/-- C7: `snapAngle` returns `end` unchanged when snapping is disabled or
the endpoints are closer than 4 units; it always preserves the distance
from `start`; and on the concrete input `snapAngle((0,0),(10,1))` it
yields the point `(sqrt 101, 0)` — at distance `dist((0,0),(10,1)) =
sqrt 101` from the origin, at exactly 0 degrees. -/
theorem snapAngle_spec (en : Bool) (s e : RPt) :
    (en = false → snapAngle en s e = e) ∧
    (distR s e < 4 → snapAngle en s e = e) ∧
    distR s (snapAngle en s e) = distR s e ∧
    snapAngle true ⟨0, 0⟩ ⟨10, 1⟩ = ⟨Real.sqrt 101, 0⟩ ∧
    distR ⟨0, 0⟩ ⟨10, 1⟩ = Real.sqrt 101 := by
  refine ⟨?_, ?_, snapAngle_preserves_dist en s e, snapAngle_concrete, ?_⟩
  · rintro rfl; rfl
  · intro hlt
    cases en with
    | false => rfl
    | true =>
        simp only [snapAngle, if_true]
        rw [if_pos (by rw [distR_swap]; exact hlt)]
  · unfold distR; norm_num

/-- Closed witness: disabled snapping is the identity, and the snapped
endpoint of the concrete example keeps its distance from the origin. -/
theorem snapAngle_spec_witness :
    snapAngle false ⟨0, 0⟩ ⟨3, 4⟩ = ⟨3, 4⟩ ∧
    distR ⟨0, 0⟩ (snapAngle true ⟨0, 0⟩ ⟨10, 1⟩) = distR ⟨0, 0⟩ ⟨10, 1⟩ :=
  ⟨(snapAngle_spec false ⟨0, 0⟩ ⟨3, 4⟩).1 rfl,
   (snapAngle_spec true ⟨0, 0⟩ ⟨10, 1⟩).2.2.1⟩

end Draw
